import Mathlib

/-!
Verification of the timer / async-task core of the `bare-steel` kernel.

The repository contains two iterations of the timer synchronization
primitive:

* `src/task/timer/mod.rs` — the variant compiled into the kernel
  (referenced from `main.rs`): readiness is decided directly from the
  parity of the stored tick counter (no phase flag array).
* `src/task/timer.rs` — an earlier iteration keeping an explicit
  two-element `READY` phase-flag array next to the counter.

Both are embedded below (`TimerMod` and `TimerFlags`), together with a
model of the executor idle loop (whose source is outside the packaged
tree and is therefore modelled from the specification).

Machine integers: the tick counter is a Rust `u64`; it is embedded as a
`Nat` reduced modulo `2^64` at each store.  Wake handles (`core::task::Waker`)
are opaque capabilities; they are embedded as an abstract identity
(`Waker := Nat`).  A `futures_util::task::AtomicWaker` cell holds at most
one handle: `register` overwrites the cell, `wake` takes the handle out of
the cell and invokes it.  Rust panics (array index out of bounds,
`assert!`) are embedded as `Option.none` results.
-/

namespace BareSteel

/-- The `u64` modulus. -/
def U64 : Nat := 2 ^ 64

/-- Abstract identity of a wake handle (`core::task::Waker`). -/
abbrev Waker : Type := Nat

/-! ### `src/task/timer/mod.rs` — the parity variant -/

namespace TimerMod

/-- `const MAX_TIMERS: usize = 8;` -/
def MAX_TIMERS : Nat := 8

/-- The mutable statics of `src/task/timer/mod.rs`:
`static TIMER: AtomicU64` and `static WAKER: [AtomicWaker; MAX_TIMERS]`.
Each `AtomicWaker` cell holds at most one registered handle. -/
structure State where
  timer : Nat
  waker : Fin MAX_TIMERS → Option Waker

/-- Boot state: `TIMER = AtomicU64::new(0)`, every waker cell empty
(`AtomicWaker::new()`). -/
def initState : State := { timer := 0, waker := fun _ => none }

/-- `current_counter()` of the spec: a plain load of `TIMER`. -/
def current_counter (s : State) : Nat := s.timer

/-- `set_timer(timer: u64)` (the spec's `record_tick`): stores the counter,
then wakes each waker cell in index order; `AtomicWaker::wake` takes the
registered handle out of its cell and invokes it.  Returns the new state
and the list of handles invoked, in table order. -/
def set_timer (t : Nat) (s : State) : State × List Waker :=
  let s1 : State := { s with timer := t % U64 }
  ({ s1 with waker := fun _ => none },
   (List.finRange MAX_TIMERS).filterMap s1.waker)

/-- `pub enum Timer { Tick(usize), Tock(usize) }` -/
inductive Timer where
  | Tick (id : Nat)
  | Tock (id : Nat)

/-- `Timer::id`: `(timer id, tick/tock = 1/0)`. -/
def Timer.id : Timer → Nat × Nat
  | .Tick id => (id, 1)
  | .Tock id => (id, 0)

/-- First half of `Timer::poll`: `WAKER[id].register(cx.waker())`.
The array index panics (`none`) when `id` is out of bounds; otherwise the
handle is stored in the cell for `id`, replacing any previous one. -/
def Timer.register_step (tm : Timer) (w : Waker) (s : State) : Option State :=
  if h : tm.id.1 < MAX_TIMERS then
    some { s with waker := Function.update s.waker ⟨tm.id.1, h⟩ (some w) }
  else
    none

/-- Result of a `Future::poll`. -/
inductive PollRes where
  | Ready (v : Nat)
  | Pending
deriving DecidableEq

/-- Second half of `Timer::poll`: read
`clock = TIMER.load() as u8 & 1` and compare with the requested phase;
on a match resolve with a fresh load of `TIMER`.  It performs no write. -/
def Timer.check_step (tm : Timer) (s : State) : State × PollRes :=
  let clock := s.timer % 2 ^ 8 % 2
  if tm.id.2 = clock then (s, .Ready s.timer) else (s, .Pending)

/-- `impl Future for Timer { fn poll }`: register the caller's handle,
then check the clock parity — in that order. -/
def Timer.poll (tm : Timer) (w : Waker) (s : State) : Option (State × PollRes) :=
  (tm.register_step w s).map tm.check_step

/-- The state after a successful `WAKER[id].register(w)` (identity when
`id` is out of bounds; `register_step` panics there instead). -/
def regS (id : Nat) (w : Waker) (s : State) : State :=
  if h : id < MAX_TIMERS then
    { s with waker := Function.update s.waker ⟨id, h⟩ (some w) }
  else s

/-! #### The `sleep` future

`pub async fn sleep(id: usize, ticks: u32)` desugars to a state machine
with one state per await point: before each `Timer::Tick(id).await` and
before each `Timer::Tock(id).await`, carrying the number of tick→tock
cycles still to complete (the current one included). -/

/-- Await-point states of the `sleep(id, ticks)` future.
`atTick k`: about to await `Timer::Tick(id)`, with `k` cycles left
(current included); `atTock k`: about to await `Timer::Tock(id)` of the
current cycle. -/
inductive SleepSt where
  | atTick (k : Nat)
  | atTock (k : Nat)
deriving DecidableEq

/-- Measure used for termination of one `poll` of the sleep future. -/
def SleepSt.meas : SleepSt → Nat
  | .atTick k => 2 * k + 1
  | .atTock k => 2 * k

/-- Entry of `sleep(id, ticks)`: `assert!(ticks >= 2)` (a panic, `none`,
when violated), then `hticks = ticks / 2` cycles to run, starting before
the first `Tick` await. -/
def sleepStart (ticks : Nat) : Option SleepSt :=
  if 2 ≤ ticks then some (.atTick (ticks / 2)) else none

/-- One `poll` of the sleep future: polls the currently awaited `Timer`
future; whenever it is ready, falls through to the next await point of
the `for` loop within the same poll.  Returns the updated timer state
and either the next suspension state (`Sum.inl`) or the completion value
(`Sum.inr`, the counter observed at the final Tock).  `none` embeds a
panic of the inner poll. -/
def sleepPoll (id : Nat) (w : Waker) : SleepSt → State → Option (State × (SleepSt ⊕ Nat))
  | .atTick k, s =>
    match Timer.poll (.Tick id) w s with
    | none => none
    | some (s1, .Pending) => some (s1, .inl (.atTick k))
    | some (s1, .Ready _) => sleepPoll id w (.atTock k) s1
  | .atTock k, s =>
    match Timer.poll (.Tock id) w s with
    | none => none
    | some (s1, .Pending) => some (s1, .inl (.atTock k))
    | some (s1, .Ready v) =>
      if h : k ≤ 1 then some (s1, .inr v)
      else sleepPoll id w (.atTick (k - 1)) s1
termination_by st _ => st.meas
decreasing_by
  all_goals simp only [SleepSt.meas]
  all_goals omega

/-- Executor-level driver for a single task running the sleep future:
poll the task; while it suspends, deliver the next hardware tick via
`set_timer` (which wakes the handle the poll registered) and poll again.
Returns the completion value together with the number of suspensions
(polls that returned `Pending` to the executor); `none` when the tick
budget runs out before completion (or a poll panics). -/
def driveSleep (id : Nat) (w : Waker) : SleepSt → State → List Nat → Nat → Option (Nat × Nat)
  | st, s, ticks, cnt =>
    match sleepPoll id w st s with
    | none => none
    | some (_, .inr v) => some (v, cnt)
    | some (s1, .inl st1) =>
      match ticks with
      | [] => none
      | t :: rest => driveSleep id w st1 (set_timer t s1).1 rest (cnt + 1)
termination_by _ _ ticks _ => ticks.length

/-- A sequence of interrupt deliveries: one `set_timer` call per counter
value, in order. -/
def run_ticks (s : State) : List Nat → State
  | [] => s
  | t :: ts => run_ticks (set_timer t s).1 ts

end TimerMod

/-! ### `src/task/timer.rs` — the phase-flag variant -/

namespace TimerFlags

/-- `const MAX_TIMERS: usize = 8;` -/
def MAX_TIMERS : Nat := 8

/-- The mutable statics of `src/task/timer.rs`:
`static READY: [AtomicBool; 2]`, `static WAKER: [AtomicWaker; MAX_TIMERS]`
and `static TIMER: AtomicU64`. -/
structure State where
  timer : Nat
  ready : Fin 2 → Bool
  waker : Fin MAX_TIMERS → Option Waker

/-- Boot state: counter 0, both phase flags false, waker cells empty. -/
def initState : State :=
  { timer := 0, ready := fun _ => false, waker := fun _ => none }

/-- `set_timer(timer: u64)` (the spec's `record_tick`): stores the counter,
computes `index = (timer % 2) as usize`, sets `READY[index]` and clears
`READY[index ^ 1]`, then wakes every waker cell in index order (each
`wake` takes the handle out of its cell).  Returns the new state and the
invoked handles. -/
def set_timer (t : Nat) (s : State) : State × List Waker :=
  let tv := t % U64
  let index := tv % 2
  let s1 : State :=
    { s with
      timer := tv
      ready := fun i => if i.val = index then true
        else if i.val = index ^^^ 1 then false else s.ready i }
  ({ s1 with waker := fun _ => none },
   (List.finRange MAX_TIMERS).filterMap s1.waker)

/-- `pub enum Timer { Tick(usize), Tock(usize) }` -/
inductive Timer where
  | Tick (id : Nat)
  | Tock (id : Nat)

/-- `Timer::get_id`: `(tick/tock = 1/0, timer id)`. -/
def Timer.get_id : Timer → Nat × Nat
  | .Tick id => (1, id)
  | .Tock id => (0, id)

/-- `Timer::is_ready`: register the handle in `WAKER[id]` (panicking,
`none`, when `id` is out of bounds), then read `READY[t]`.  The phase
index `t` is 0 or 1, so the `READY` access is always in bounds. -/
def Timer.is_ready (tm : Timer) (w : Waker) (s : State) : Option (State × Bool) :=
  let t := tm.get_id.1
  let id := tm.get_id.2
  if h : id < MAX_TIMERS then
    let s1 : State := { s with waker := Function.update s.waker ⟨id, h⟩ (some w) }
    if ht : t < 2 then some (s1, s1.ready ⟨t, ht⟩) else none
  else
    none

/-- `impl Future for Timer { fn poll }`: ready iff `is_ready`, resolving
with a load of `TIMER`. -/
def Timer.poll (tm : Timer) (w : Waker) (s : State) : Option (State × TimerMod.PollRes) :=
  (tm.is_ready w s).map fun (s1, r) =>
    if r then (s1, .Ready s1.timer) else (s1, .Pending)

end TimerFlags

/-! ### Executor idle loop — modelled from the spec

The executor source (`task/executor.rs`) is not part of the packaged
tree; only its caller (`main.rs`) is.  The idle sequence is therefore
modelled from the specification of `Executor::run`. -/

namespace ExecutorSpec

/-- Modelled from the spec: control points of the executor's run loop
around the disable-interrupts/check/halt/enable sequence (the executor
source `task/executor.rs` is not in the packaged tree).  `run` is the
drain/poll phase; `chk` is the re-check of queue emptiness performed
with interrupts disabled; `halted` is the processor parked by `hlt`. -/
inductive EPc where
  | run
  | chk
  | halted
deriving DecidableEq

/-- Modelled from the spec: executor-visible machine state — the
ReadyQueue of task ids, whether interrupt delivery is enabled, and the
control point of the run loop. -/
structure EState where
  queue : List Nat
  intOn : Bool
  pc : EPc
deriving DecidableEq

/-- Modelled from the spec: initial state — empty ReadyQueue,
interrupts enabled, executor draining/polling. -/
def initE : EState := { queue := [], intOn := true, pc := .run }

/-- Modelled from the spec: interleaved small steps of the executor's
run loop and of the timer interrupt.  `poll` pops a ready task id during
the drain phase; `disable` is taken when the drain loop finishes (a
concurrent interrupt may already have refilled the queue, which the
re-check catches); `haltEmpty` is the atomic `sti; hlt` taken only when
the re-check still sees an empty queue; `resume` re-enables interrupts
and goes back to draining when the re-check sees a non-empty queue;
`interrupt` is a hardware tick pushing a wake, possible only while
interrupt delivery is enabled, and it also wakes the processor out of
`hlt`. -/
inductive Step : EState → EState → Prop where
  | poll (s : EState) (id : Nat) (rest : List Nat) :
      s.pc = .run → s.queue = id :: rest →
      Step s { s with queue := rest }
  | disable (s : EState) :
      s.pc = .run →
      Step s { s with intOn := false, pc := .chk }
  | haltEmpty (s : EState) :
      s.pc = .chk → s.queue = [] →
      Step s { s with intOn := true, pc := .halted }
  | resume (s : EState) :
      s.pc = .chk → s.queue ≠ [] →
      Step s { s with intOn := true, pc := .run }
  | interrupt (s : EState) (id : Nat) :
      s.intOn = true →
      Step s { queue := s.queue ++ [id], intOn := true,
               pc := if s.pc = .halted then .run else s.pc }

/-- Modelled from the spec: states reachable from `initE` by the
interleaving semantics. -/
inductive Reachable : EState → Prop where
  | refl : Reachable initE
  | step {s t : EState} : Reachable s → Step s t → Reachable t

end ExecutorSpec

/-! ## Helper lemmas -/

namespace TimerMod

theorem clock_eq (n : Nat) : n % 2 ^ 8 % 2 = n % 2 :=
  Nat.mod_mod_of_dvd n (by norm_num)

theorem regS_timer (id : Nat) (w : Waker) (s : State) :
    (regS id w s).timer = s.timer := by
  unfold regS; split <;> rfl

theorem regS_waker_self (id : Nat) (w : Waker) (s : State) (h : id < MAX_TIMERS) :
    (regS id w s).waker ⟨id, h⟩ = some w := by
  unfold regS; rw [dif_pos h]; simp

theorem regS_regS (id : Nat) (w : Waker) (s : State) :
    regS id w (regS id w s) = regS id w s := by
  unfold regS; split
  · simp [Function.update_idem]
  · rfl

theorem poll_eq (tm : Timer) (w : Waker) (s : State) (h : tm.id.1 < MAX_TIMERS) :
    Timer.poll tm w s = some (regS tm.id.1 w s,
      if tm.id.2 = s.timer % 2 then PollRes.Ready s.timer else PollRes.Pending) := by
  unfold Timer.poll Timer.register_step Timer.check_step regS
  rw [dif_pos h, dif_pos h]
  simp only [Option.map_some', clock_eq]
  split <;> rfl

theorem poll_pending (tm : Timer) (w : Waker) (s : State) (h : tm.id.1 < MAX_TIMERS)
    (hp : tm.id.2 ≠ s.timer % 2) :
    Timer.poll tm w s = some (regS tm.id.1 w s, PollRes.Pending) := by
  rw [poll_eq tm w s h, if_neg hp]

theorem poll_ready (tm : Timer) (w : Waker) (s : State) (h : tm.id.1 < MAX_TIMERS)
    (hp : tm.id.2 = s.timer % 2) :
    Timer.poll tm w s = some (regS tm.id.1 w s, PollRes.Ready s.timer) := by
  rw [poll_eq tm w s h, if_pos hp]

theorem set_timer_fst (t : Nat) (s : State) :
    (set_timer t s).1 = { timer := t % U64, waker := fun _ => none } := rfl

theorem mem_set_timer_woken (t : Nat) (s : State) (i : Fin MAX_TIMERS) (w : Waker)
    (hi : s.waker i = some w) : w ∈ (set_timer t s).2 := by
  unfold set_timer
  exact List.mem_filterMap.2 ⟨i, List.mem_finRange i, hi⟩

theorem sleepPoll_atTick_even (id : Nat) (w : Waker) (k : Nat) (s : State)
    (h : id < MAX_TIMERS) (hp : s.timer % 2 = 0) :
    sleepPoll id w (.atTick k) s = some (regS id w s, .inl (.atTick k)) := by
  rw [sleepPoll]
  rw [poll_pending (.Tick id) w s (by simpa [Timer.id] using h)
    (by simp [Timer.id, hp])]
  rfl

theorem sleepPoll_atTock_odd (id : Nat) (w : Waker) (k : Nat) (s : State)
    (h : id < MAX_TIMERS) (hp : s.timer % 2 = 1) :
    sleepPoll id w (.atTock k) s = some (regS id w s, .inl (.atTock k)) := by
  rw [sleepPoll]
  rw [poll_pending (.Tock id) w s (by simpa [Timer.id] using h)
    (by simp [Timer.id, hp])]
  rfl

theorem sleepPoll_atTick_odd (id : Nat) (w : Waker) (k : Nat) (s : State)
    (h : id < MAX_TIMERS) (hp : s.timer % 2 = 1) :
    sleepPoll id w (.atTick k) s = some (regS id w s, .inl (.atTock k)) := by
  rw [sleepPoll]
  rw [poll_ready (.Tick id) w s (by simpa [Timer.id] using h) (by simp [Timer.id, hp])]
  show sleepPoll id w (.atTock k) (regS id w s) = _
  rw [sleepPoll_atTock_odd id w k (regS id w s) h (by rw [regS_timer]; exact hp),
    regS_regS]

theorem sleepPoll_atTock_even_last (id : Nat) (w : Waker) (k : Nat) (s : State)
    (h : id < MAX_TIMERS) (hp : s.timer % 2 = 0) (hk : k ≤ 1) :
    sleepPoll id w (.atTock k) s = some (regS id w s, .inr s.timer) := by
  rw [sleepPoll]
  rw [poll_ready (.Tock id) w s (by simpa [Timer.id] using h) (by simp [Timer.id, hp])]
  simp only [dif_pos hk]
  rfl

theorem sleepPoll_atTock_even_more (id : Nat) (w : Waker) (k : Nat) (s : State)
    (h : id < MAX_TIMERS) (hp : s.timer % 2 = 0) (hk : 1 < k) :
    sleepPoll id w (.atTock k) s = some (regS id w s, .inl (.atTick (k - 1))) := by
  rw [sleepPoll]
  rw [poll_ready (.Tock id) w s (by simpa [Timer.id] using h) (by simp [Timer.id, hp])]
  simp only [dif_neg (Nat.not_le.2 hk)]
  show sleepPoll id w (.atTick (k - 1)) (regS id w s) = _
  rw [sleepPoll_atTick_even id w (k - 1) (regS id w s) h (by rw [regS_timer]; exact hp),
    regS_regS]

theorem sleepPoll_waker (id : Nat) (w : Waker) (st : SleepSt) (s s1 : State)
    (r : SleepSt ⊕ Nat) (h : id < MAX_TIMERS)
    (he : sleepPoll id w st s = some (s1, r)) : s1.waker ⟨id, h⟩ = some w := by
  have hreg : ∀ s' : State, (regS id w s').waker ⟨id, h⟩ = some w :=
    fun s' => regS_waker_self id w s' h
  rcases st with k | k
  · rcases Nat.mod_two_eq_zero_or_one s.timer with hp | hp
    · rw [sleepPoll_atTick_even id w k s h hp] at he
      cases he; exact hreg s
    · rw [sleepPoll_atTick_odd id w k s h hp] at he
      cases he; exact hreg s
  · rcases Nat.mod_two_eq_zero_or_one s.timer with hp | hp
    · by_cases hk : k ≤ 1
      · rw [sleepPoll_atTock_even_last id w k s h hp hk] at he
        cases he; exact hreg s
      · rw [sleepPoll_atTock_even_more id w k s h hp (Nat.not_le.1 hk)] at he
        cases he; exact hreg s
    · rw [sleepPoll_atTock_odd id w k s h hp] at he
      cases he; exact hreg s

theorem driveSleep_pending (id : Nat) (w : Waker) (st st1 : SleepSt) (s s1 : State)
    (t : Nat) (rest : List Nat) (cnt : Nat)
    (he : sleepPoll id w st s = some (s1, .inl st1)) :
    driveSleep id w st s (t :: rest) cnt =
      driveSleep id w st1 (set_timer t s1).1 rest (cnt + 1) := by
  rw [driveSleep, he]

theorem driveSleep_done (id : Nat) (w : Waker) (st : SleepSt) (s s1 : State)
    (v : Nat) (ticks : List Nat) (cnt : Nat)
    (he : sleepPoll id w st s = some (s1, .inr v)) :
    driveSleep id w st s ticks cnt = some (v, cnt) := by
  rw [driveSleep, he]

theorem set_timer_timer (t : Nat) (s : State) (hb : t < U64) :
    ((set_timer t s).1).timer = t := by
  simp [set_timer, Nat.mod_eq_of_lt hb]

theorem driveSleep_odd (id : Nat) (w : Waker) (h : id < MAX_TIMERS) :
    ∀ (j : Nat) (s : State) (c cnt : Nat), s.timer = c → c % 2 = 1 →
    c + 2 * j + 1 < U64 →
    driveSleep id w (.atTick (j + 1)) s (List.range' (c + 1) (2 * j + 1)) cnt =
      some (c + 2 * j + 1, cnt + 2 * j + 1) := by
  intro j
  induction j with
  | zero =>
    intro s c cnt hc hp hb
    have hr : List.range' (c + 1) (2 * 0 + 1) = [c + 1] := by norm_num
    rw [hr]
    rw [driveSleep_pending id w _ _ s _ (c + 1) [] cnt
      (sleepPoll_atTick_odd id w 1 s h (hc ▸ hp))]
    have ht1 : ((set_timer (c + 1) (regS id w s)).1).timer = c + 1 :=
      set_timer_timer _ _ (by omega)
    rw [driveSleep_done id w _ _ _ _ [] (cnt + 1)
      (sleepPoll_atTock_even_last id w 1 _ h (by rw [ht1]; omega) (by omega))]
    rw [ht1]
  | succ j ih =>
    intro s c cnt hc hp hb
    rw [show 2 * (j + 1) + 1 = 2 * j + 1 + 1 + 1 by omega,
      List.range'_succ, List.range'_succ]
    rw [driveSleep_pending id w _ _ s _ (c + 1) _ cnt
      (sleepPoll_atTick_odd id w (j + 2) s h (hc ▸ hp))]
    have ht1 : ((set_timer (c + 1) (regS id w s)).1).timer = c + 1 :=
      set_timer_timer _ _ (by omega)
    rw [driveSleep_pending id w _ _ _ _ (c + 1 + 1) _ (cnt + 1)
      (sleepPoll_atTock_even_more id w (j + 2) _ h (by rw [ht1]; omega) (by omega))]
    rw [show c + 2 * (j + 1) + 1 = c + 2 + 2 * j + 1 by omega,
      show cnt + 2 * (j + 1) + 1 = cnt + 1 + 1 + (2 * j + 1) by omega]
    have ht2 : ((set_timer (c + 1 + 1)
        (regS id w (set_timer (c + 1) (regS id w s)).1)).1).timer = c + 2 :=
      set_timer_timer _ _ (by omega)
    have := ih ((set_timer (c + 1 + 1) (regS id w (set_timer (c + 1) (regS id w s)).1)).1)
      (c + 2) (cnt + 1 + 1) ht2 (by omega) (by omega)
    rw [show cnt + 1 + 1 + (2 * j + 1) = cnt + 1 + 1 + 2 * j + 1 by omega]
    exact this

theorem driveSleep_even (id : Nat) (w : Waker) (h : id < MAX_TIMERS)
    (j : Nat) (s : State) (c cnt : Nat) (hc : s.timer = c) (hp : c % 2 = 0)
    (hb : c + 2 * j + 2 < U64) :
    driveSleep id w (.atTick (j + 1)) s (List.range' (c + 1) (2 * j + 2)) cnt =
      some (c + 2 * j + 2, cnt + 2 * j + 2) := by
  rw [show 2 * j + 2 = (2 * j + 1) + 1 by omega, List.range'_succ]
  rw [driveSleep_pending id w _ _ s _ (c + 1) _ cnt
    (sleepPoll_atTick_even id w (j + 1) s h (hc ▸ hp))]
  have ht1 : ((set_timer (c + 1) (regS id w s)).1).timer = c + 1 :=
    set_timer_timer _ _ (by omega)
  have := driveSleep_odd id w h j _ (c + 1) (cnt + 1) ht1 (by omega) (by omega)
  rw [show c + 2 * j + 2 = c + 1 + 2 * j + 1 by omega,
    show cnt + 2 * j + 2 = cnt + 1 + 2 * j + 1 by omega]
  exact this

theorem driveSleep_out (id : Nat) (w : Waker) (st st1 : SleepSt) (s s1 : State)
    (cnt : Nat) (he : sleepPoll id w st s = some (s1, .inl st1)) :
    driveSleep id w st s [] cnt = none := by
  rw [driveSleep, he]

theorem driveSleep_odd_short (id : Nat) (w : Waker) (h : id < MAX_TIMERS) :
    ∀ (j : Nat) (s : State) (c cnt : Nat), s.timer = c → c % 2 = 1 →
    c + 2 * j < U64 →
    driveSleep id w (.atTick (j + 1)) s (List.range' (c + 1) (2 * j)) cnt = none := by
  intro j
  induction j with
  | zero =>
    intro s c cnt hc hp hb
    exact driveSleep_out id w _ _ s _ cnt (sleepPoll_atTick_odd id w 1 s h (hc ▸ hp))
  | succ j ih =>
    intro s c cnt hc hp hb
    rw [show 2 * (j + 1) = 2 * j + 1 + 1 by omega, List.range'_succ, List.range'_succ]
    rw [driveSleep_pending id w _ _ s _ (c + 1) _ cnt
      (sleepPoll_atTick_odd id w (j + 2) s h (hc ▸ hp))]
    have ht1 : ((set_timer (c + 1) (regS id w s)).1).timer = c + 1 :=
      set_timer_timer _ _ (by omega)
    rw [driveSleep_pending id w _ _ _ _ (c + 1 + 1) _ (cnt + 1)
      (sleepPoll_atTock_even_more id w (j + 2) _ h (by rw [ht1]; omega) (by omega))]
    have ht2 : ((set_timer (c + 1 + 1)
        (regS id w (set_timer (c + 1) (regS id w s)).1)).1).timer = c + 2 :=
      set_timer_timer _ _ (by omega)
    exact ih _ (c + 2) (cnt + 1 + 1) ht2 (by omega) (by omega)

theorem driveSleep_even_short (id : Nat) (w : Waker) (h : id < MAX_TIMERS)
    (j : Nat) (s : State) (c cnt : Nat) (hc : s.timer = c) (hp : c % 2 = 0)
    (hb : c + 2 * j + 1 < U64) :
    driveSleep id w (.atTick (j + 1)) s (List.range' (c + 1) (2 * j + 1)) cnt = none := by
  rw [List.range'_succ]
  rw [driveSleep_pending id w _ _ s _ (c + 1) _ cnt
    (sleepPoll_atTick_even id w (j + 1) s h (hc ▸ hp))]
  have ht1 : ((set_timer (c + 1) (regS id w s)).1).timer = c + 1 :=
    set_timer_timer _ _ (by omega)
  exact driveSleep_odd_short id w h j _ (c + 1) (cnt + 1) ht1 (by omega) (by omega)

theorem poll_none (tm : Timer) (w : Waker) (s : State) (h : ¬ tm.id.1 < MAX_TIMERS) :
    Timer.poll tm w s = none := by
  unfold Timer.poll Timer.register_step
  rw [dif_neg h]
  rfl

theorem sleepPoll_none (id : Nat) (w : Waker) (st : SleepSt) (s : State)
    (h : ¬ id < MAX_TIMERS) : sleepPoll id w st s = none := by
  rcases st with k | k <;> rw [sleepPoll] <;>
    rw [poll_none _ w s (by simpa [Timer.id] using h)]

theorem current_counter_run_ticks (l : List Nat) :
    ∀ (s : State), l ≠ [] → (∀ v ∈ l, v < U64) →
    some (current_counter (run_ticks s l)) = l.getLast? := by
  induction l with
  | nil => intro s hne _; exact absurd rfl hne
  | cons t ts ih =>
    intro s _ hu
    rcases ts with _ | ⟨t2, ts2⟩
    · show some (current_counter ((set_timer t s).1)) = _
      simp [current_counter, set_timer,
        Nat.mod_eq_of_lt (hu t (by simp))]
    · show some (current_counter (run_ticks (set_timer t s).1 (t2 :: ts2))) = _
      rw [ih (set_timer t s).1 (by simp) (fun v hv => hu v (by simp [hv]))]
      rw [List.getLast?_cons_cons]

end TimerMod

namespace TimerFlags

theorem mod2U (t : Nat) : t % U64 % 2 = t % 2 :=
  Nat.mod_mod_of_dvd t (dvd_pow_self 2 (by norm_num))

theorem set_timer_ready (t : Nat) (s : State) (i : Fin 2) :
    ((set_timer t s).1).ready i = decide (i.val = t % 2) := by
  show (if i.val = t % U64 % 2 then true
    else if i.val = t % U64 % 2 ^^^ 1 then false else s.ready i) = _
  rw [mod2U]
  rcases Nat.mod_two_eq_zero_or_one t with h2 | h2 <;> fin_cases i <;> simp [h2]

theorem set_timer_fst_timer (t : Nat) (s : State) :
    ((set_timer t s).1).timer = t % U64 := rfl

theorem poll_some_fields (tm : Timer) (w : Waker) (s s1 : State)
    (r : TimerMod.PollRes) (he : Timer.poll tm w s = some (s1, r)) :
    s1.ready = s.ready ∧ s1.timer = s.timer := by
  unfold Timer.poll Timer.is_ready at he
  cases tm <;> simp [Timer.get_id] at he <;>
    · rcases he with ⟨h8, he⟩
      split at he <;> (cases he; exact ⟨rfl, rfl⟩)

theorem poll_isSome_iff (tm : Timer) (w : Waker) (s : State) :
    (Timer.poll tm w s).isSome = true ↔ tm.get_id.2 < MAX_TIMERS := by
  unfold Timer.poll Timer.is_ready
  cases tm <;> simp [Timer.get_id]

end TimerFlags

/-! ## Claims -/

open TimerMod in
/-- C1: every poll of a `Timer` future with task-slot id below the fixed
capacity stores the caller's wake handle into the waker-registry slot for
id before reading the readiness condition: `Timer::poll` is literally the
check step applied after the register step, the registration succeeds
unconditionally, and the registered handle is present in the resulting
state even on a poll that immediately reports ready.  The earlier
flag-based iteration (`Timer::is_ready`) has the same property: the
readiness answer it returns is read on a state that already carries the
registration. -/
theorem timer_poll_registers_before_check (tm : Timer) (w : Waker) (s : State)
    (h : tm.id.1 < MAX_TIMERS) :
    Timer.register_step tm w s = some (regS tm.id.1 w s) ∧
    (regS tm.id.1 w s).waker ⟨tm.id.1, h⟩ = some w ∧
    Timer.poll tm w s = some (Timer.check_step tm (regS tm.id.1 w s)) ∧
    (∀ s1 r, Timer.poll tm w s = some (s1, r) → s1.waker ⟨tm.id.1, h⟩ = some w) ∧
    (∀ (tf : TimerFlags.Timer) (sf : TimerFlags.State)
      (xf : TimerFlags.State × Bool) (hf : tf.get_id.2 < TimerFlags.MAX_TIMERS),
      TimerFlags.Timer.is_ready tf w sf = some xf →
      xf.1.waker ⟨tf.get_id.2, hf⟩ = some w) := by
  refine ⟨?_, regS_waker_self tm.id.1 w s h, ?_, ?_, ?_⟩
  · unfold Timer.register_step regS
    rw [dif_pos h, dif_pos h]
  · unfold Timer.poll Timer.register_step regS
    rw [dif_pos h, dif_pos h]
    rfl
  · intro s1 r he
    rw [poll_eq tm w s h] at he
    split at he <;> (cases he; exact regS_waker_self tm.id.1 w s h)
  · intro tf sf xf hf he
    unfold TimerFlags.Timer.is_ready at he
    rw [dif_pos hf] at he
    split at he
    · cases he
      simp
    · cases he

open TimerMod in
/-- C2: a poll of a `Timer` future awaiting phase P (with slot id below
capacity) returns ready with the current counter value exactly when the
counter's parity equals P, and pending otherwise; a poll that follows a
`set_timer` call whose counter has parity P resolves to that counter's
value; and if the tick lands between the registration and the readiness
check of a poll, the check still resolves to the new counter. -/
theorem timer_poll_phase_characterization (tm : Timer) (w : Waker) (s : State)
    (h : tm.id.1 < MAX_TIMERS) :
    Timer.poll tm w s = some (regS tm.id.1 w s,
      if tm.id.2 = s.timer % 2 then .Ready (current_counter s) else .Pending) ∧
    (∀ t, t < U64 → t % 2 = tm.id.2 →
      Timer.poll tm w (set_timer t s).1 =
        some (regS tm.id.1 w (set_timer t s).1, .Ready t)) ∧
    (∀ t, t < U64 → t % 2 = tm.id.2 →
      Timer.check_step tm (set_timer t (regS tm.id.1 w s)).1 =
        ((set_timer t (regS tm.id.1 w s)).1, .Ready t)) := by
  refine ⟨poll_eq tm w s h, ?_, ?_⟩
  · intro t hb hp
    have ht : ((set_timer t s).1).timer = t := set_timer_timer t s hb
    rw [poll_eq tm w _ h, ht, if_pos hp.symm]
  · intro t hb hp
    have ht : ((set_timer t (regS tm.id.1 w s)).1).timer = t :=
      set_timer_timer t _ hb
    unfold Timer.check_step
    rw [ht, clock_eq, if_pos hp.symm]

open TimerMod in
/-- C10: at boot, before any `set_timer` call, the stored counter is 0, so
polling `Timer::Tock(id)` for any id below capacity resolves immediately
with the value 0, while `Timer::Tick(id)` returns pending — the Tock
phase is observably asserted before any timer interrupt has occurred. -/
theorem boot_phase_is_tock (id : Nat) (w w' : Waker) (h : id < MAX_TIMERS) :
    current_counter initState = 0 ∧
    Timer.poll (.Tock id) w initState = some (regS id w initState, .Ready 0) ∧
    Timer.poll (.Tick id) w' initState = some (regS id w' initState, .Pending) := by
  refine ⟨rfl, ?_, ?_⟩
  · rw [poll_eq (.Tock id) w initState (by simpa [Timer.id] using h)]
    rfl
  · rw [poll_eq (.Tick id) w' initState (by simpa [Timer.id] using h)]
    rfl

open TimerMod in
/-- Witness for C1 at slot 0 on the boot state. -/
theorem timer_poll_registers_before_check_witness :
    Timer.poll (.Tick 0) 0 initState =
      some (Timer.check_step (.Tick 0) (regS 0 0 initState)) :=
  (timer_poll_registers_before_check (.Tick 0) 0 initState (by decide)).2.2.1

open TimerMod in
/-- Witness for C2: after `set_timer 1`, a Tick poll resolves to 1. -/
theorem timer_poll_phase_characterization_witness :
    Timer.poll (.Tick 0) 0 (set_timer 1 initState).1 =
      some (regS 0 0 (set_timer 1 initState).1, .Ready 1) :=
  (timer_poll_phase_characterization (.Tick 0) 0 initState (by decide)).2.1
    1 (by norm_num [U64]) (by decide)

open TimerMod in
/-- Witness for C10 at slot 0. -/
theorem boot_phase_is_tock_witness :
    Timer.poll (.Tock 0) 0 initState = some (regS 0 0 initState, .Ready 0) :=
  (boot_phase_is_tock 0 0 0 (by decide)).2.1

open TimerFlags in
/-- C3: `set_timer(counter)` stores the counter, sets the `READY` flag
for phase `counter mod 2` and clears the flag of the opposite phase, so
after any `set_timer` call exactly one of the two phase flags is true;
every subsequent `set_timer` re-establishes this for its own counter, and
a `Timer` poll never writes the flags, so polls preserve the mutual
exclusion. -/
theorem record_tick_phase_flag_exclusion (t : Nat) (s : State) :
    ((set_timer t s).1).timer = t % U64 ∧
    (∀ i : Fin 2,
      (i.val = t % 2 → ((set_timer t s).1).ready i = true) ∧
      (i.val ≠ t % 2 → ((set_timer t s).1).ready i = false)) ∧
    ((set_timer t s).1).ready 0 ≠ ((set_timer t s).1).ready 1 ∧
    (∀ (tm : Timer) (w : Waker) (s' s1 : State) (r : TimerMod.PollRes),
      Timer.poll tm w s' = some (s1, r) → s1.ready = s'.ready) := by
  refine ⟨rfl, ?_, ?_, ?_⟩
  · intro i
    constructor <;> intro hiv <;> rw [set_timer_ready] <;> simp [hiv]
  · rw [set_timer_ready, set_timer_ready]
    rcases Nat.mod_two_eq_zero_or_one t with h2 | h2 <;> simp [h2]
  · intro tm w s' s1 r he
    exact (poll_some_fields tm w s' s1 r he).1

open TimerFlags in
/-- Witness for C3 at counter 1: the Tick flag is set, the Tock flag is
cleared. -/
theorem record_tick_phase_flag_exclusion_witness :
    ((set_timer 1 initState).1).ready 1 = true ∧
    ((set_timer 1 initState).1).ready 0 = false :=
  ⟨((record_tick_phase_flag_exclusion 1 initState).2.1 1).1 (by decide),
   ((record_tick_phase_flag_exclusion 1 initState).2.1 0).2 (by decide)⟩

open TimerMod in
/-- C4: `sleep(id, ticks)` composes exactly `ticks / 2` complete
Tick→Tock cycles: from the boot state, driven by consecutive counters
1, 2, …, it completes precisely at the `2*(ticks/2)`-th delivered tick —
with one fewer tick it does not complete — and returns the counter value
observed at the final Tock (odd tick counts are floored); in particular,
a task performing `sleep(0, 2)` driven by `set_timer 1` then `set_timer 2`
completes exactly once with the value 2. -/
theorem sleep_awaits_floor_half_cycles (id : Nat) (w : Waker) (ticks : Nat)
    (h : id < MAX_TIMERS) (ht : 2 ≤ ticks) (hb : 2 * (ticks / 2) + 2 < U64) :
    sleepStart ticks = some (.atTick (ticks / 2)) ∧
    driveSleep id w (.atTick (ticks / 2)) initState
        (List.range' 1 (2 * (ticks / 2))) 0 =
      some (2 * (ticks / 2), 2 * (ticks / 2)) ∧
    driveSleep id w (.atTick (ticks / 2)) initState
        (List.range' 1 (2 * (ticks / 2) - 1)) 0 = none ∧
    driveSleep 0 w (.atTick 1) initState [1, 2] 0 = some (2, 2) := by
  obtain ⟨j, hj⟩ : ∃ j, ticks / 2 = j + 1 := ⟨ticks / 2 - 1, by omega⟩
  refine ⟨by unfold sleepStart; rw [if_pos ht], ?_, ?_, ?_⟩
  · rw [hj, show 2 * (j + 1) = 2 * j + 2 by omega]
    have := driveSleep_even id w h j initState 0 0 rfl rfl (by omega)
    simp only [Nat.zero_add] at this
    exact this
  · rw [hj, show 2 * (j + 1) - 1 = 2 * j + 1 by omega]
    have := driveSleep_even_short id w h j initState 0 0 rfl rfl (by omega)
    simp only [Nat.zero_add] at this
    exact this
  · have := driveSleep_even 0 w (by decide) 0 initState 0 0 rfl rfl
      (by norm_num [U64])
    simp only [Nat.zero_add] at this
    exact this

open TimerMod in
/-- Witness for C4 at `sleep(0, 2)`. -/
theorem sleep_awaits_floor_half_cycles_witness :
    driveSleep 0 0 (.atTick (2 / 2)) initState (List.range' 1 (2 * (2 / 2))) 0 =
      some (2 * (2 / 2), 2 * (2 / 2)) :=
  (sleep_awaits_floor_half_cycles 0 0 2 (by decide) (by norm_num)
    (by norm_num [U64])).2.1

open TimerMod in
/-- C5 counterexample: `sleep(0, 4)` driven from the boot state (Tock
phase) by ticks 1, 2, 3, 4 returns `Pending` to the executor four times
before completing with the counter of the second Tock — not twice as the
claim states. -/
theorem sleep_four_ticks_suspends_four_not_two :
    driveSleep 0 0 (.atTick (4 / 2)) initState [1, 2, 3, 4] 0 = some (4, 4) ∧
    (4 : Nat) ≠ 2 := by
  constructor
  · have := driveSleep_even 0 0 (by decide) 1 initState 0 0 rfl rfl
      (by norm_num [U64])
    simp only [Nat.zero_add] at this
    exact this
  · norm_num

open TimerMod in
/-- C5 (amended): `sleep(id, ticks)` with `hticks = ticks/2 ≥ 1` cycles,
polled once per delivered tick, suspends exactly `2*hticks` times when
the counter's phase at the first poll is Tock (even parity) and exactly
`2*hticks - 1` times when it is Tick (odd parity) — for `ticks = 4`,
four resp. three suspensions, i.e. `ticks/2` full tick→tock interrupt
periods, not two suspensions — and returns the counter observed at the
final Tock; it never busy-polls between suspensions: every poll that
suspends leaves the task's wake handle registered in the waker slot for
id, so the task is re-polled only upon a wake. -/
theorem sleep_suspension_counts (id : Nat) (w : Waker) (k : Nat) (s : State)
    (h : id < MAX_TIMERS) (hk : 1 ≤ k) (hb : s.timer + 2 * k + 2 < U64) :
    (s.timer % 2 = 0 →
      driveSleep id w (.atTick k) s (List.range' (s.timer + 1) (2 * k)) 0 =
        some (s.timer + 2 * k, 2 * k)) ∧
    (s.timer % 2 = 1 →
      driveSleep id w (.atTick k) s (List.range' (s.timer + 1) (2 * k - 1)) 0 =
        some (s.timer + 2 * k - 1, 2 * k - 1)) ∧
    (∀ (st st1 : SleepSt) (s' s1 : State),
      sleepPoll id w st s' = some (s1, .inl st1) → s1.waker ⟨id, h⟩ = some w) := by
  obtain ⟨j, hj⟩ : ∃ j, k = j + 1 := ⟨k - 1, by omega⟩
  subst hj
  refine ⟨?_, ?_, ?_⟩
  · intro hp
    rw [show 2 * (j + 1) = 2 * j + 2 by omega,
      show s.timer + (2 * j + 2) = s.timer + 2 * j + 2 by omega]
    have := driveSleep_even id w h j s s.timer 0 rfl hp (by omega)
    simp only [Nat.zero_add] at this
    exact this
  · intro hp
    rw [show s.timer + 2 * (j + 1) - 1 = s.timer + 2 * j + 1 by omega,
      show 2 * (j + 1) - 1 = 2 * j + 1 by omega]
    have := driveSleep_odd id w h j s s.timer 0 rfl hp (by omega)
    simp only [Nat.zero_add] at this
    exact this
  · intro st st1 s' s1 he
    exact sleepPoll_waker id w st s' s1 (.inl st1) h he

open TimerMod in
/-- Witness for the amended C5 at `sleep(0, 2)` from the boot state. -/
theorem sleep_suspension_counts_witness :
    driveSleep 0 0 (.atTick 1) initState
        (List.range' (initState.timer + 1) (2 * 1)) 0 =
      some (initState.timer + 2 * 1, 2 * 1) :=
  (sleep_suspension_counts 0 0 1 initState (by decide) (by norm_num)
    (by norm_num [initState, U64])).1 rfl

open TimerMod in
/-- C6 counterexample: after a Tock-phase poll registers handle 5 for
slot 0 and a Tick-phase poll then registers handle 7 for the same slot,
the registry cell for slot 0 holds only handle 7 — one shared
`AtomicWaker` per task slot, not one per (phase, slot) — and a subsequent
tick of Tock parity (`set_timer 2`) wakes exactly handle 7, the handle
registered by the Tick-phase waiter, while handle 5 is never woken. -/
theorem waker_registry_shared_slot_cex :
    (Timer.poll (.Tock 0) 5 initState).bind (fun p1 =>
      (Timer.poll (.Tick 0) 7 p1.1).map (fun p2 =>
        (p2.1.waker ⟨0, by decide⟩, (set_timer 2 p2.1).2))) = some (some 7, [7]) := by
  decide

open TimerMod in
/-- C6 (amended): the waker registry holds one wake handle per fixed
task-slot index, shared by both phases — a later registration for a slot
overwrites the earlier one regardless of phase — and `set_timer` wakes
every handle registered in the fixed-size table regardless of the tick's
phase, taking each handle out of its cell as it wakes it. -/
theorem waker_registry_single_slot_wake_all :
    (∀ (t : Nat) (s : State),
      (set_timer t s).2 = (List.finRange MAX_TIMERS).filterMap s.waker ∧
      ((set_timer t s).1).waker = fun _ => none) ∧
    (∀ (id : Nat) (h : id < MAX_TIMERS) (w1 w2 : Waker) (s s1 s2 : State)
      (r1 r2 : PollRes),
      Timer.poll (.Tock id) w1 s = some (s1, r1) →
      Timer.poll (.Tick id) w2 s1 = some (s2, r2) →
      s2.waker ⟨id, h⟩ = some w2) := by
  constructor
  · intro t s
    exact ⟨rfl, rfl⟩
  · intro id h w1 w2 s s1 s2 r1 r2 h1 h2
    rw [poll_eq _ w2 s1 (by simpa [Timer.id] using h)] at h2
    split at h2 <;> (cases h2; exact regS_waker_self id w2 s1 h)

open TimerMod in
/-- Witness for the amended C6: registering 5 (Tock) then 7 (Tick) for
slot 0 leaves only 7 in the shared cell. -/
theorem waker_registry_single_slot_wake_all_witness :
    (regS 0 7 (regS 0 5 initState)).waker ⟨0, by decide⟩ = some 7 :=
  waker_registry_single_slot_wake_all.2 0 (by decide) 5 7 initState
    (regS 0 5 initState) (regS 0 7 (regS 0 5 initState)) (.Ready 0) .Pending
    rfl rfl

open TimerMod in
/-- C7: for every nonempty sequence of `set_timer` deliveries with
strictly increasing u64 counters, `current_counter()` after the N calls
equals the N-th (last) value supplied. -/
theorem current_counter_tracks_last_tick (l : List Nat) (s : State)
    (hne : l ≠ []) (hu : ∀ v ∈ l, v < U64) (_hmono : l.Chain' (· < ·)) :
    current_counter (run_ticks s l) = l.getLast hne := by
  have h := current_counter_run_ticks l s hne hu
  rw [List.getLast?_eq_getLast l hne] at h
  exact Option.some_injective _ h

open TimerMod in
/-- Witness for C7 on the sequence 1, 2, 3. -/
theorem current_counter_tracks_last_tick_witness :
    current_counter (run_ticks initState [1, 2, 3]) = 3 :=
  (current_counter_tracks_last_tick [1, 2, 3] initState (by decide)
    (by norm_num [U64]) (by simp)).trans rfl

open TimerMod in
/-- C8: registering a wake handle — polling a `Timer` future of either
iteration, or polling the sleep future — with a task-slot index outside
the fixed capacity `MAX_TIMERS = 8` panics immediately (no result), and
for every index strictly below the capacity every waker-table and
flag-table access is in bounds: the poll always returns a result. -/
theorem registry_capacity_bounds (tm : Timer) (w : Waker) (s : State)
    (id : Nat) (st : SleepSt)
    (tf : TimerFlags.Timer) (wf : Waker) (sf : TimerFlags.State) :
    MAX_TIMERS = 8 ∧
    ((Timer.poll tm w s).isSome = true ↔ tm.id.1 < MAX_TIMERS) ∧
    ((sleepPoll id w st s).isSome = true ↔ id < MAX_TIMERS) ∧
    ((TimerFlags.Timer.poll tf wf sf).isSome = true ↔
      tf.get_id.2 < TimerFlags.MAX_TIMERS) := by
  refine ⟨rfl, ?_, ?_, TimerFlags.poll_isSome_iff tf wf sf⟩
  · constructor
    · intro hs
      by_contra h8
      rw [poll_none tm w s h8] at hs
      simp at hs
    · intro h8
      rw [poll_eq tm w s h8]
      rfl
  · constructor
    · intro hs
      by_contra h8
      rw [sleepPoll_none id w st s h8] at hs
      simp at hs
    · intro h8
      rcases st with k | k
      · rcases Nat.mod_two_eq_zero_or_one s.timer with hp | hp
        · rw [sleepPoll_atTick_even id w k s h8 hp]; rfl
        · rw [sleepPoll_atTick_odd id w k s h8 hp]; rfl
      · rcases Nat.mod_two_eq_zero_or_one s.timer with hp | hp
        · by_cases hk : k ≤ 1
          · rw [sleepPoll_atTock_even_last id w k s h8 hp hk]; rfl
          · rw [sleepPoll_atTock_even_more id w k s h8 hp (by omega)]; rfl
        · rw [sleepPoll_atTock_odd id w k s h8 hp]; rfl

open ExecutorSpec in
/-- C9 (modelled from the spec; the executor source `task/executor.rs` is
not in the packaged tree): in the executor run loop, the re-check of
ReadyQueue emptiness is performed with interrupt delivery disabled, and
the processor is halted only from that check and only when the queue is
still empty — in every reachable state interrupts are off at the check
point, so no tick interrupt can push a wake between the emptiness check
and the halt, and whenever the processor is halted the queue is empty:
it never sleeps through a pending wakeup. -/
theorem executor_halt_safety (s : EState) (hr : Reachable s) :
    (s.pc = .chk → s.intOn = false) ∧ (s.pc = .halted → s.queue = []) := by
  induction hr with
  | refl =>
    refine ⟨fun hx => ?_, fun hx => ?_⟩ <;> simp [initE] at hx
  | step hr hst ih =>
    rename_i s' t'
    cases hst with
    | poll i rest h1 h2 =>
      constructor <;> intro hx <;> simp_all
    | disable h1 =>
      constructor <;> intro hx <;> simp_all
    | haltEmpty h1 h2 =>
      constructor <;> intro hx <;> simp_all
    | resume h1 h2 =>
      constructor <;> intro hx <;> simp_all
    | interrupt i h1 =>
      by_cases hph : s'.pc = .halted <;>
        constructor <;> intro hx <;> simp_all

open ExecutorSpec in
/-- Witness for C9: the halted state reached by draining, disabling
interrupts, re-checking emptiness and halting indeed has an empty
queue. -/
theorem executor_halt_safety_witness :
    ({ queue := [], intOn := true, pc := .halted } : EState).queue = [] :=
  (executor_halt_safety _ (Reachable.step
    (Reachable.step Reachable.refl (Step.disable initE rfl))
    (Step.haltEmpty _ rfl rfl))).2 rfl

end BareSteel
